import Mathlib

/-!
Verification of the file-operation service
(`src/example-agent-codebase-arch/layered-architecture/tools/file_tools.py`)
and of the jq command-generation script (`src/sfa_jq_anthropic_v1.py`).

Python strings are embedded as `List Char`; the filesystem is embedded as a
map from paths to optional file contents together with a set of directories.
Each operation of `FileService` is translated line by line from the source
into a pure function from the filesystem state to an operation result plus
the new filesystem state.
-/

/-- The Python whitespace characters stripped by `str.strip()` and tested by
`str.isspace()` (ASCII range). -/
def isPySpace (c : Char) : Bool :=
  c = ' ' || c = '\t' || c = '\n' || c = '\r' || c = '\x0b' || c = '\x0c'

/-- Embedding of the Python guard `not path or not path.strip()`: true iff the
string is empty or consists only of whitespace. -/
def pathIsBlank (path : List Char) : Bool :=
  path.all isPySpace

/-- Modelled from the spec: `normalize_path` lives in `tools/path_utils.py`,
which is not part of the sources; the spec lists path normalization among the
out-of-scope "thin I/O/utility wrappers", so it is modelled as the identity on
paths. -/
def normalize_path (path : List Char) : List Char := path

/-- Modelled from the spec: the `FileOperationResult` dataclass lives in
`api/models.py`, which is not part of the sources. The spec's data model
section gives its three fields: `success` (boolean), `message` (human-readable
outcome), and `content` (optional string payload, populated for view
operations); results constructed without a content argument carry none. -/
structure FileOperationResult where
  success : Bool
  message : List Char
  content : Option (List Char) := none
deriving Repr, DecidableEq

/-- The filesystem state: a partial map from (normalized) paths to file
contents, plus the set of existing directories. -/
structure FS where
  files : List Char → Option (List Char)
  dirs : List Char → Bool

/-- Write (create or overwrite) the file at `path`. -/
def FS.setFile (fs : FS) (path content : List Char) : FS :=
  { fs with files := fun q => if q = path then some content else fs.files q }

/-- Embedding of Python's `f.readlines()`: split the content into lines, each
line keeping its terminating newline; a final segment without a newline is
kept as a last line. -/
def readlines : List Char → List (List Char)
  | [] => []
  | c :: rest =>
    if c = '\n' then [c] :: readlines rest
    else
      match readlines rest with
      | [] => [[c]]
      | l :: ls => (c :: l) :: ls

/-- Joining the lines produced by `readlines` restores the content: this is
the identity `"".join(f.readlines()) == f.read()` used by `view_file`. -/
theorem flatten_readlines (s : List Char) : (readlines s).flatten = s := by
  induction s with
  | nil => simp [readlines]
  | cons c rest ih =>
    by_cases hc : c = '\n'
    · simp [readlines, hc] at ih ⊢
      exact ih
    · simp only [readlines, hc, if_neg]
      cases h : readlines rest with
      | nil =>
        rw [h] at ih
        simp at ih
        simp [hc, ← ih]
      | cons l ls =>
        rw [h] at ih
        simp [hc] at ih ⊢
        exact ih

/-- Embedding of the Python slice `l[start:stop]` as it occurs in `view_file`:
`start` is a nonnegative int and `stop` an int that may be negative (negative
values count from the end, as in Python). -/
def pySlice (l : List (List Char)) (start : Nat) (stop : Int) : List (List Char) :=
  let stopN : Nat := if stop < 0 then ((l.length : Int) + stop).toNat else min l.length stop.toNat
  (l.take stopN).drop start

/-- Embedding of Python's `list.insert(i, x)` for `0 ≤ i`: insert `x` so that
it ends up at index `i` (appending at the end when `i ≥ len`). -/
def pyInsert (l : List (List Char)) (i : Nat) (x : List Char) : List (List Char) :=
  l.take i ++ x :: l.drop i

/-- Embedding of Python's substring test `old in s`. -/
def pyContains (old : List Char) : List Char → Bool
  | [] => old.isEmpty
  | c :: rest => old.isPrefixOf (c :: rest) || pyContains old rest

/-- Embedding of Python's `s.replace(old, new, 1)`: replace the leftmost
occurrence of `old` by `new` (with Python's convention that the empty string
occurs at the start of every string); `s` is returned unchanged when `old`
does not occur. -/
def replaceFirst (old new : List Char) : List Char → List Char
  | [] => if old.isEmpty then new else []
  | c :: rest =>
    if old.isPrefixOf (c :: rest) then new ++ (c :: rest).drop old.length
    else c :: replaceFirst old new rest

/-- `pyContains old s` is true exactly when `old` occurs as a (contiguous)
substring of `s`. -/
theorem pyContains_iff (old s : List Char) :
    pyContains old s = true ↔ ∃ pre suf, s = pre ++ old ++ suf := by
  induction s with
  | nil =>
    simp only [pyContains, List.isEmpty_iff]
    constructor
    · rintro rfl
      exact ⟨[], [], rfl⟩
    · rintro ⟨pre, suf, h⟩
      rcases List.append_eq_nil.mp h.symm with ⟨h1, h2⟩
      exact (List.append_eq_nil.mp h1).2
  | cons c rest ih =>
    simp only [pyContains, Bool.or_eq_true, List.isPrefixOf_iff_prefix, ih]
    constructor
    · rintro (⟨t, ht⟩ | ⟨pre, suf, rfl⟩)
      · exact ⟨[], t, by simp [← ht]⟩
      · exact ⟨c :: pre, suf, by simp⟩
    · rintro ⟨pre, suf, hs⟩
      cases pre with
      | nil =>
        exact Or.inl ⟨suf, by simpa using hs.symm⟩
      | cons c' pre' =>
        simp only [List.cons_append, List.cons.injEq] at hs
        exact Or.inr ⟨pre', suf, hs.2⟩

/-- When `old` does not occur in `s`, `replaceFirst` leaves `s` unchanged. -/
theorem replaceFirst_of_not_contains (old new s : List Char)
    (h : pyContains old s = false) : replaceFirst old new s = s := by
  induction s with
  | nil =>
    simp only [pyContains] at h
    simp [replaceFirst, h]
  | cons c rest ih =>
    simp only [pyContains, Bool.or_eq_false_iff] at h
    simp [replaceFirst, h.1, ih h.2]

/-- When `old` occurs in `s`, `replaceFirst old new s` rewrites exactly the
leftmost occurrence of `old` to `new`: `s` splits as `pre ++ old ++ suf` with
`pre` of minimal length, and the result is `pre ++ new ++ suf` — the suffix
`suf`, which contains every later occurrence, is kept intact. -/
theorem replaceFirst_spec (old new s : List Char) (h : pyContains old s = true) :
    ∃ pre suf, s = pre ++ old ++ suf ∧
      replaceFirst old new s = pre ++ new ++ suf ∧
      ∀ pre' suf', s = pre' ++ old ++ suf' → pre.length ≤ pre'.length := by
  induction s with
  | nil =>
    simp only [pyContains, List.isEmpty_iff] at h
    subst h
    exact ⟨[], [], rfl, by simp [replaceFirst], fun _ _ _ => Nat.zero_le _⟩
  | cons c rest ih =>
    cases hp : old.isPrefixOf (c :: rest) with
    | true =>
      obtain ⟨t, ht⟩ := List.isPrefixOf_iff_prefix.mp hp
      refine ⟨[], t, by simp [← ht], ?_, fun _ _ _ => Nat.zero_le _⟩
      simp only [replaceFirst, hp, if_true, List.nil_append]
      rw [← ht, List.drop_left]
    | false =>
      have hr : pyContains old rest = true := by
        simpa [pyContains, hp] using h
      obtain ⟨pre, suf, h1, h2, hmin⟩ := ih hr
      refine ⟨c :: pre, suf, by simp [h1], ?_, ?_⟩
      · simp [replaceFirst, hp, h2]
      · rintro pre' suf' hs
        cases pre' with
        | nil =>
          exfalso
          simp only [List.nil_append] at hs
          have : old.isPrefixOf (c :: rest) = true :=
            List.isPrefixOf_iff_prefix.mpr ⟨suf', hs.symm⟩
          rw [hp] at this
          exact Bool.false_ne_true this
        | cons c' pre'' =>
          simp only [List.cons_append, List.cons.injEq] at hs
          simpa using Nat.succ_le_succ (hmin pre'' suf' hs.2)

/-- Shorthand to embed a Python string literal. -/
def lit (s : String) : List Char := s.toList

/-- Embedding of `os.path.dirname` (POSIX): everything before the final
separator, with trailing separators stripped unless the head is all
separators. -/
def dirname (p : List Char) : List Char :=
  let i := p.length - (p.reverse.takeWhile (fun c => c ≠ '/')).length
  let head := p.take i
  if head ≠ [] ∧ ¬ head.all (fun c => c = '/') then
    (head.reverse.dropWhile (fun c => c = '/')).reverse
  else head

/-- The chain of directories that `os.makedirs d` guarantees to exist
afterwards: every prefix of `d` up to a separator, and `d` itself. -/
def dirAncestors (d : List Char) : List (List Char) :=
  let comps := d.splitOn '/'
  (List.range comps.length).map (fun k => List.intercalate ['/'] (comps.take (k + 1)))

/-- Embedding of `os.makedirs d` on the directory set: `d` and all its missing
ancestors are created (creating an already-existing ancestor is a no-op with
the same resulting set). -/
def mkdirs (dirs : List Char → Bool) (d : List Char) : List Char → Bool :=
  fun q => if q ∈ dirAncestors d then true else dirs q

/-- The full directory path is among the directories `mkdirs` guarantees. -/
theorem self_mem_dirAncestors (d : List Char) : d ∈ dirAncestors d := by
  have hne : d.splitOn '/' ≠ [] := by
    simp only [List.splitOn]
    exact List.splitOnP_ne_nil _ d
  have hlen : 0 < (d.splitOn '/').length := List.length_pos.mpr hne
  refine List.mem_map.mpr ⟨(d.splitOn '/').length - 1, List.mem_range.mpr (by omega), ?_⟩
  have htake : (d.splitOn '/').take ((d.splitOn '/').length - 1 + 1) = d.splitOn '/' := by
    apply List.take_of_length_le
    omega
  rw [htake]
  exact List.intercalate_splitOn d '/'

/-- Embedding of `FileService.view_file` (file_tools.py, lines 27-69).
Reads the file; when a `view_range = [start, end]` is given, converts `start`
to 0-indexed with a lower clamp, maps `end = -1` to the line count and
otherwise clamps `end` to the line count, and keeps only that slice of the
lines. Only reads, so it returns just the result. -/
def view_file (fs : FS) (path : List Char) (view_range : Option (Int × Int)) :
    FileOperationResult :=
  let path := normalize_path path
  match fs.files path with
  | none => { success := false, message := lit "File " ++ path ++ lit " does not exist" }
  | some content =>
    let lines := readlines content
    let lines :=
      match view_range with
      | none => lines
      | some (start, stop) =>
        let startN : Nat := (max 0 (start - 1)).toNat
        let stopI : Int := if stop = -1 then (lines.length : Int) else min (lines.length : Int) stop
        pySlice lines startN stopI
    { success := true
      message := lit "Successfully viewed file " ++ path
      content := some lines.flatten }

/-- Embedding of `FileService.str_replace` (file_tools.py, lines 72-111).
Fails when the file is absent or `old_str` does not occur in its content;
otherwise replaces the first occurrence and rewrites the file. -/
def str_replace (fs : FS) (path old_str new_str : List Char) :
    FileOperationResult × FS :=
  let path := normalize_path path
  match fs.files path with
  | none =>
    ({ success := false, message := lit "File " ++ path ++ lit " does not exist" }, fs)
  | some content =>
    if pyContains old_str content = false then
      ({ success := false
         message := lit "The specified string was not found in the file " ++ path }, fs)
    else
      ({ success := true, message := lit "Successfully replaced text in " ++ path },
        fs.setFile path (replaceFirst old_str new_str content))

/-- Embedding of `FileService.create_file` (file_tools.py, lines 114-149).
Fails on an empty/blank path; otherwise creates the missing directory chain
of the path's dirname (when nonempty and absent) and writes `file_text or ""`
to the file, overwriting any existing file. -/
def create_file (fs : FS) (path : List Char) (file_text : Option (List Char)) :
    FileOperationResult × FS :=
  if pathIsBlank path then
    ({ success := false, message := lit "Invalid file path provided: path is empty." }, fs)
  else
    let path := normalize_path path
    let directory := dirname path
    let fs1 :=
      if directory ≠ [] ∧ fs.dirs directory = false then
        { fs with dirs := mkdirs fs.dirs directory }
      else fs
    ({ success := true, message := lit "Successfully created file " ++ path },
      fs1.setFile path (file_text.getD []))

/-- Embedding of `FileService.insert_text` (file_tools.py, lines 152-216).
Fails on a blank path, a missing file, or a missing line number. The
1-indexed `insert_line` is shifted to 0-indexed and clamped into
`[0, len(lines)]`; the subsequent bounds check mirrors the source's check on
the clamped index. The inserted string is given a trailing newline when it is
nonempty and lacks one, and is inserted at the clamped index. -/
def insert_text (fs : FS) (path : List Char) (insert_line : Option Int)
    (new_str : List Char) : FileOperationResult × FS :=
  if pathIsBlank path then
    ({ success := false, message := lit "Invalid file path provided: path is empty." }, fs)
  else
    let path := normalize_path path
    match fs.files path with
    | none =>
      ({ success := false, message := lit "File " ++ path ++ lit " does not exist" }, fs)
    | some content =>
      match insert_line with
      | none =>
        ({ success := false
           message := lit "No line number specified: insert_line is missing." }, fs)
      | some line =>
        let lines := readlines content
        let idx : Int := min (max 0 (line - 1)) (lines.length : Int)
        if idx < 0 ∨ idx > (lines.length : Int) then
          ({ success := false
             message := lit "Insert line number " ++ (toString idx).toList ++
               lit " out of range (0-" ++ (toString lines.length).toList ++ lit ")." }, fs)
        else
          let toIns :=
            if new_str ≠ [] ∧ new_str.getLast? ≠ some '\n' then new_str ++ ['\n'] else new_str
          let newLines := pyInsert lines idx.toNat toIns
          ({ success := true
             message := lit "Successfully inserted text at line " ++
               (toString (idx + 1)).toList ++ lit " in " ++ path },
            fs.setFile path newLines.flatten)

/-- Embedding of `FileService.undo_edit` (file_tools.py, lines 219-245).
Fails on a blank path; otherwise reports success with a fixed message and
leaves the filesystem untouched (path normalization aside, the body performs
no filesystem access). -/
def undo_edit (fs : FS) (path : List Char) : FileOperationResult × FS :=
  if pathIsBlank path then
    ({ success := false, message := lit "Invalid file path provided: path is empty." }, fs)
  else
    ({ success := true
       message := lit "Undo functionality is not implemented in this version." }, fs)

/-- Embedding of Python's `s.strip()`: drop leading and trailing whitespace. -/
def pyStrip (s : List Char) : List Char :=
  ((s.dropWhile isPySpace).reverse.dropWhile isPySpace).reverse

/-- Worker for `pyReplaceAll` on a nonempty needle: replace every
non-overlapping occurrence of `old`, scanning left to right. -/
def replaceAllPos (old new : List Char) (s : List Char) : List Char :=
  match s with
  | [] => []
  | c :: rest =>
    if old ≠ [] ∧ old.isPrefixOf (c :: rest) then
      new ++ replaceAllPos old new (rest.drop (old.length - 1))
    else c :: replaceAllPos old new rest
termination_by s.length
decreasing_by
  · simp only [List.length_cons, List.length_drop]
    omega
  · simp only [List.length_cons]
    omega

/-- Embedding of Python's `s.replace(old, new)` (all occurrences; with
Python's convention for the empty needle, which occurs before every character
and at the end). -/
def pyReplaceAll (s old new : List Char) : List Char :=
  if old = [] then new ++ (s.map (fun c => c :: new)).flatten
  else replaceAllPos old new s

/-- The instructional template `JQ_PROMPT` of `sfa_jq_anthropic_v1.py`
(lines 32-117), with the `\x7b\x7buser_request\x7d\x7d` placeholder. -/
def jqPrompt : List Char :=
  lit "<purpose>\n    You are a world-class expert at crafting precise jq commands for JSON processing.\n    Your goal is to generate accurate, minimal jq commands that exactly match the user\x27s data manipulation needs.\n</purpose>\n\n<instructions>\n    <instruction>Return ONLY the jq command - no explanations, comments, or extra text.</instruction>\n    <instruction>Always reference the input file specified in the user request (e.g., using -f flag if needed).</instruction>\n    <instruction>Ensure the command follows jq best practices for efficiency and readability.</instruction>\n    <instruction>Use the examples to understand different types of jq command patterns.</instruction>\n    <instruction>When user asks to pipe or output to a file, use the correct syntax for the command and create a file name (if not specified) based on a shorted version of the user-request and the input file name.</instruction>\n    <instruction>If the user request asks to pipe or output to a file, and no explicit directory is specified, use the directory of the input file.</instruction>\n    <instruction>Output your response by itself, do not use backticks or markdown formatting. We\x27re going to run your response as a shell command immediately.</instruction>\n    <instruction>If your results you\x27re working with a list of objects, default to outputting a valid json array.</instruction>\n</instructions>\n\n<examples>\n    <example>\n        <user-request>\n            Select the \"name\" and \"age\" fields from data.json where age > 30\n        </user-request>\n        <jq-command>\n            jq \x27[.[] | select(.age > 30) | \x7bname, age\x7d]\x27 data.json\n        </jq-command>\n    </example>\n    <example>\n        <user-request>\n            Count the number of entries in users.json with status \"active\"\n        </user-request>\n        <jq-command>\n            jq \x27[.[] | select(.status == \"active\")] | length\x27 users.json\n        </jq-command>\n    </example>\n    <example>\n        <user-request>\n            Extract nested phone numbers from contacts.json using compact output\n        </user-request>\n        <jq-command>\n            jq -c \x27.contact.info.phones\x27 contacts.json\n        </jq-command>\n    </example>\n    <example>\n        <user-request>\n            Convert log.json entries to CSV format with timestamp, level, message\n        </user-request>\n        <jq-command>\n            jq -r \x27.[] | [.timestamp, .level, .message] | @csv\x27 log.json\n        </jq-command>\n    </example>\n    <example>\n        <user-request>\n            Sort records in people.json by age in descending order\n        </user-request>\n        <jq-command>\n            jq \x27sort_by(.age) | reverse\x27 people.json\n        </jq-command>\n    </example>\n    <example>\n        <user-request>\n            Save active users from data/users.json to a new file\n        </user-request>\n        <jq-command>\n            jq \x27[.[] | select(.status == \"active\")]\x27 data/users.json > data/active_users.json\n        </jq-command>\n    </example>\n    <example>\n        <user-request>\n            Convert data.json to CSV for keys name, age, city and save in same directory\n        </user-request>\n        <jq-command>\n            jq -r \x27.[] | [.name, .age, .city] | @csv\x27 data/testing/data.json > data/testing/data_csv.csv\n        </jq-command>\n    </example>\n    <example>\n        <user-request>\n            Filter scores above 80 from data/mock.json and save to ./high_scores.json\n        </user-request>\n        <jq-command>\n            jq \x27[.[] | select(.score > 80)]\x27 data/mock.json > ./high_scores.json\n        </jq-command>\n    </example>\n</examples>\n\n<user-request>\n    \x7b\x7buser_request\x7d\x7d\n</user-request>"

/-- One observable effect of the jq command-generation script: a console
print, the single language-model API request, a shell execution of the
candidate command, or process termination with an exit code. -/
inductive SfaEv where
  | print (s : List Char)
  | apiCall (modelName : List Char) (maxTokens : Nat) (prompt : List Char)
  | shellRun (cmd : List Char)
  | exitProc (code : Nat)
deriving Repr, DecidableEq

/-- Embedding of `main` in `sfa_jq_anthropic_v1.py` (lines 120-178) as the
ordered trace of its observable effects. The values the real script reads
from its environment are parameters: the `ANTHROPIC_API_KEY` value (`none`
when unset), the positional prompt argument, the `--exe` flag, the text of
the model's first response block, and the return code / stdout / stderr of
the shell subprocess. The Python guard `if not ANTHROPIC_API_KEY` fires both
when the variable is unset and when it is the empty string. -/
def sfaMain (apiKey : Option (List Char)) (promptArg : List Char) (exe : Bool)
    (apiResp : List Char) (rc : Int) (out err : List Char) : List SfaEv :=
  if apiKey = none ∨ apiKey = some [] then
    [.print (lit "[red]Error: ANTHROPIC_API_KEY environment variable is not set[/red]"),
     .print (lit "Please get your API key from your Anthropic dashboard"),
     .print (lit "Then set it with: export ANTHROPIC_API_KEY=\x27your-api-key-here\x27"),
     .exitProc 1]
  else
    let prompt := pyReplaceAll jqPrompt (lit "\x7b\x7buser_request\x7d\x7d") promptArg
    let cmd := pyStrip apiResp
    [.apiCall (lit "claude-3-sonnet-20240229") 1024 prompt,
     .print (lit "\n🤖 Generated JQ command: " ++ cmd)] ++
    (if exe then
       [.print (lit "\n🔍 Executing command..."), .shellRun cmd] ++
       (if rc ≠ 0 then
          [.print (lit "\n❌ Error executing command: " ++ err), .exitProc 1]
        else
          [.print (out ++ err)] ++
          (if err = [] then [.print (lit "\n✅ Command executed successfully")] else []))
     else [])

/-- Fixture: a filesystem with one file `a.txt` containing `"one\ntwo\nthree\n"`. -/
def fsAbc : FS :=
  { files := fun q => if q = lit "a.txt" then some (lit "one\ntwo\nthree\n") else none
    dirs := fun _ => false }

/-- Fixture: a filesystem with one file `a.txt` containing `"a\n"`. -/
def fsOne : FS :=
  { files := fun q => if q = lit "a.txt" then some (lit "a\n") else none
    dirs := fun _ => false }

/-- Fixture: a filesystem with one file `a.txt` containing `"abcabc"`. -/
def fsDup : FS :=
  { files := fun q => if q = lit "a.txt" then some (lit "abcabc") else none
    dirs := fun _ => false }

/-- Fixture: an empty filesystem. -/
def fsEmpty : FS :=
  { files := fun _ => none
    dirs := fun _ => false }

/-- C3 counterexample: the claim quantifies over every path argument, but on
the empty path `undo_edit` takes the blank-path guard and returns a failed
result, not a successful one. -/
theorem undo_edit_blank_path_fails :
    (undo_edit fsEmpty (lit "")).1.success = false := by decide

/-- C3 (amended): for every non-empty, non-blank path, `undo_edit` succeeds
with the fixed message stating that undo is not implemented and leaves the
filesystem unchanged. -/
theorem undo_edit_nonblank_succeeds_unchanged (fs : FS) (path : List Char)
    (hb : pathIsBlank path = false) :
    (undo_edit fs path).1.success = true ∧
    (undo_edit fs path).1.message =
      lit "Undo functionality is not implemented in this version." ∧
    (undo_edit fs path).2 = fs := by
  simp [undo_edit, hb]

/-- C3 witness: the amended theorem applied to the concrete path `a.txt`. -/
theorem undo_edit_nonblank_succeeds_unchanged_witness :
    (undo_edit fsEmpty (lit "a.txt")).1.success = true ∧
    (undo_edit fsEmpty (lit "a.txt")).1.message =
      lit "Undo functionality is not implemented in this version." ∧
    (undo_edit fsEmpty (lit "a.txt")).2 = fsEmpty :=
  undo_edit_nonblank_succeeds_unchanged fsEmpty (lit "a.txt") (by decide)

/-- C9: with `ANTHROPIC_API_KEY` unset, the script prints exactly the three
credential-setup guidance lines and exits with code 1, whatever the prompt
argument, the `--exe` flag, or the behaviour of the external services; in
particular no API call event occurs in the trace. -/
theorem sfa_missing_key_exits_before_api_call (promptArg : List Char) (exe : Bool)
    (apiResp : List Char) (rc : Int) (out err : List Char) :
    sfaMain none promptArg exe apiResp rc out err =
      [.print (lit "[red]Error: ANTHROPIC_API_KEY environment variable is not set[/red]"),
       .print (lit "Please get your API key from your Anthropic dashboard"),
       .print (lit "Then set it with: export ANTHROPIC_API_KEY=\x27your-api-key-here\x27"),
       .exitProc 1] ∧
    ∀ m t p, SfaEv.apiCall m t p ∉ sfaMain none promptArg exe apiResp rc out err := by
  refine ⟨by simp [sfaMain], ?_⟩
  intro m t p
  simp [sfaMain]

/-- C10: viewing an existing file with a range whose start lies strictly past
the last line succeeds with empty content (the out-of-range start is silently
absorbed by the slice), for every end value. -/
theorem view_file_start_beyond_eof_empty (fs : FS) (path c : List Char) (s : Nat) (e : Int)
    (hf : fs.files (normalize_path path) = some c)
    (hs : (readlines c).length < s) :
    (view_file fs path (some ((s : Int), e))).success = true ∧
    (view_file fs path (some ((s : Int), e))).content = some [] := by
  have key : ∀ (l : List (List Char)) (startN : Nat) (stop : Int),
      l.length ≤ startN → pySlice l startN stop = [] := by
    intro l startN stop h
    apply List.drop_eq_nil_of_le
    rw [List.length_take]
    omega
  constructor
  · simp [view_file, hf]
  · simp only [view_file, hf]
    rw [key]
    · rfl
    · omega

/-- C10 witness: on the one-line file `a.txt`, viewing lines 5..2 succeeds
with empty content. -/
theorem view_file_start_beyond_eof_empty_witness :
    (view_file fsOne (lit "a.txt") (some (((5 : Nat) : Int), (2 : Int)))).success = true ∧
    (view_file fsOne (lit "a.txt") (some (((5 : Nat) : Int), (2 : Int)))).content = some [] :=
  view_file_start_beyond_eof_empty fsOne (lit "a.txt") (lit "a\n") 5 2 (by decide) (by decide)

/-- C5: viewing an existing file with no range returns the full content; with
a valid range `[s, e]` it returns exactly lines `s..e` (1-indexed,
inclusive); and with `e = -1` it returns lines `s` through the end of the
file. -/
theorem view_file_full_and_range_spec (fs : FS) (path c : List Char) (s e : Nat)
    (hf : fs.files (normalize_path path) = some c) :
    ((view_file fs path none).success = true ∧
      (view_file fs path none).content = some c) ∧
    (1 ≤ s → s ≤ e → e ≤ (readlines c).length →
      (view_file fs path (some ((s : Int), (e : Int)))).success = true ∧
      (view_file fs path (some ((s : Int), (e : Int)))).content =
        some (((readlines c).take e).drop (s - 1)).flatten) ∧
    (1 ≤ s →
      (view_file fs path (some ((s : Int), -1))).success = true ∧
      (view_file fs path (some ((s : Int), -1))).content =
        some ((readlines c).drop (s - 1)).flatten) := by
  refine ⟨⟨by simp [view_file, hf], ?_⟩, ?_, ?_⟩
  · simp only [view_file, hf]
    rw [flatten_readlines]
  · intro h1 h2 h3
    refine ⟨by simp [view_file, hf], ?_⟩
    simp only [view_file, hf, pySlice]
    have he : ¬ ((e : Int) = -1) := by omega
    rw [if_neg he]
    have hstop : ¬ (min ((readlines c).length : Int) (e : Int) < 0) := by omega
    rw [if_neg hstop]
    have h4 : (min ((readlines c).length : Int) (e : Int)).toNat = e := by omega
    rw [h4]
    have h5 : min (readlines c).length e = e := by omega
    rw [h5]
    have h6 : (max 0 ((s : Int) - 1)).toNat = s - 1 := by omega
    rw [h6]
  · intro h1
    refine ⟨by simp [view_file, hf], ?_⟩
    simp only [view_file, hf, pySlice, if_true]
    have hstop : ¬ (((readlines c).length : Int) < 0) := by omega
    rw [if_neg hstop]
    have h4 : min (readlines c).length ((readlines c).length : Int).toNat =
        (readlines c).length := by omega
    rw [h4, List.take_length]
    have h6 : (max 0 ((s : Int) - 1)).toNat = s - 1 := by omega
    rw [h6]

/-- C5 witness: on `a.txt` containing `"one\ntwo\nthree\n"`, the no-range
view returns the whole content, the range `[2, 3]` returns lines 2..3, and
the range `[2, -1]` returns lines 2 to the end. -/
theorem view_file_full_and_range_spec_witness :
    ((view_file fsAbc (lit "a.txt") none).success = true ∧
      (view_file fsAbc (lit "a.txt") none).content = some (lit "one\ntwo\nthree\n")) ∧
    ((view_file fsAbc (lit "a.txt") (some (((2 : Nat) : Int), ((3 : Nat) : Int)))).success = true ∧
      (view_file fsAbc (lit "a.txt") (some (((2 : Nat) : Int), ((3 : Nat) : Int)))).content =
        some (((readlines (lit "one\ntwo\nthree\n")).take 3).drop (2 - 1)).flatten) ∧
    ((view_file fsAbc (lit "a.txt") (some (((2 : Nat) : Int), -1))).success = true ∧
      (view_file fsAbc (lit "a.txt") (some (((2 : Nat) : Int), -1))).content =
        some ((readlines (lit "one\ntwo\nthree\n")).drop (2 - 1)).flatten) := by
  have h := view_file_full_and_range_spec fsAbc (lit "a.txt") (lit "one\ntwo\nthree\n") 2 3
    (by decide)
  exact ⟨h.1, h.2.1 (by decide) (by decide) (by decide), h.2.2 (by decide)⟩

/-- C6: on an existing file, `str_replace` fails and leaves the filesystem
unchanged when the old string does not occur in the content; when it does
occur, it succeeds and rewrites exactly the leftmost occurrence (the split
prefix has minimal length), keeping the suffix — and hence every later
occurrence — intact. -/
theorem str_replace_first_occurrence_spec (fs : FS) (path old new c : List Char)
    (hf : fs.files (normalize_path path) = some c) :
    ((¬ ∃ pre suf, c = pre ++ old ++ suf) →
      (str_replace fs path old new).1.success = false ∧
      (str_replace fs path old new).2 = fs) ∧
    ((∃ pre suf, c = pre ++ old ++ suf) →
      (str_replace fs path old new).1.success = true ∧
      ∃ pre suf, c = pre ++ old ++ suf ∧
        (str_replace fs path old new).2.files (normalize_path path) =
          some (pre ++ new ++ suf) ∧
        (∀ q, q ≠ normalize_path path →
          (str_replace fs path old new).2.files q = fs.files q) ∧
        ∀ pre' suf', c = pre' ++ old ++ suf' → pre.length ≤ pre'.length) := by
  constructor
  · intro hno
    have hc : pyContains old c = false := by
      cases h : pyContains old c with
      | false => rfl
      | true => exact absurd ((pyContains_iff old c).mp h) hno
    simp [str_replace, hf, hc]
  · intro hyes
    have hc : pyContains old c = true := (pyContains_iff old c).mpr hyes
    obtain ⟨pre, suf, h1, h2, hmin⟩ := replaceFirst_spec old new c hc
    refine ⟨by simp [str_replace, hf, hc], pre, suf, h1, ?_, ?_, hmin⟩
    · simp [str_replace, hf, hc, FS.setFile, h2]
    · intro q hq
      simp [str_replace, hf, hc, FS.setFile, hq]

/-- C6 witness: on `a.txt` containing `"abcabc"`, replacing `"zz"` fails and
leaves the state unchanged, and replacing `"b"` by `"XY"` succeeds and
rewrites only the first occurrence, yielding `"aXYcabc"`. -/
theorem str_replace_first_occurrence_spec_witness :
    ((str_replace fsDup (lit "a.txt") (lit "zz") (lit "XY")).1.success = false ∧
      (str_replace fsDup (lit "a.txt") (lit "zz") (lit "XY")).2 = fsDup) ∧
    ((str_replace fsDup (lit "a.txt") (lit "b") (lit "XY")).1.success = true ∧
      (str_replace fsDup (lit "a.txt") (lit "b") (lit "XY")).2.files
        (normalize_path (lit "a.txt")) = some (lit "aXYcabc")) := by
  have h1 := str_replace_first_occurrence_spec fsDup (lit "a.txt") (lit "zz") (lit "XY")
    (lit "abcabc") (by decide)
  have h2 := str_replace_first_occurrence_spec fsDup (lit "a.txt") (lit "b") (lit "XY")
    (lit "abcabc") (by decide)
  have hno : ¬ ∃ pre suf, lit "abcabc" = pre ++ lit "zz" ++ suf := by
    intro hex
    have : pyContains (lit "zz") (lit "abcabc") = true :=
      (pyContains_iff (lit "zz") (lit "abcabc")).mpr hex
    revert this
    decide
  have hyes : ∃ pre suf, lit "abcabc" = pre ++ lit "b" ++ suf :=
    ⟨lit "a", lit "cabc", by decide⟩
  exact ⟨h1.1 hno, (h2.2 hyes).1, by decide⟩

/-- C7: `create_file` fails on an empty or blank path without touching the
state; on any other path it succeeds, writes a file containing exactly the
given text (the empty string when none is given), overwriting whatever file
was there, leaves every other file untouched, and when the path's parent
directory is nonempty and missing it creates the whole parent directory
chain. -/
theorem create_file_spec (fs : FS) (path : List Char) (file_text : Option (List Char)) :
    (pathIsBlank path = true →
      (create_file fs path file_text).1.success = false ∧
      (create_file fs path file_text).2 = fs) ∧
    (pathIsBlank path = false →
      (create_file fs path file_text).1.success = true ∧
      (create_file fs path file_text).2.files (normalize_path path) =
        some (file_text.getD []) ∧
      (∀ q, q ≠ normalize_path path →
        (create_file fs path file_text).2.files q = fs.files q) ∧
      (dirname (normalize_path path) ≠ [] →
        fs.dirs (dirname (normalize_path path)) = false →
        ∀ d ∈ dirAncestors (dirname (normalize_path path)),
          (create_file fs path file_text).2.dirs d = true)) := by
  constructor
  · intro hb
    simp [create_file, hb]
  · intro hb
    refine ⟨by simp [create_file, hb], ?_, ?_, ?_⟩
    · simp [create_file, hb, FS.setFile]
    · intro q hq
      by_cases hd : dirname (normalize_path path) ≠ [] ∧
          fs.dirs (dirname (normalize_path path)) = false
      · simp [create_file, hb, FS.setFile, hq, hd]
      · simp [create_file, hb, FS.setFile, hq, hd]
    · intro hdn hdm d hd
      have hcond : dirname (normalize_path path) ≠ [] ∧
          fs.dirs (dirname (normalize_path path)) = false := ⟨hdn, hdm⟩
      simp [create_file, hb, FS.setFile, hcond, mkdirs, hd]

/-- C7 witness: creating `data/a.txt` with text `"hi"` in the empty
filesystem succeeds, writes exactly that text, and creates the parent
directory `data`; creating a file at the blank path `" "` fails. -/
theorem create_file_spec_witness :
    ((create_file fsEmpty (lit " ") (some (lit "hi"))).1.success = false ∧
      (create_file fsEmpty (lit " ") (some (lit "hi"))).2 = fsEmpty) ∧
    (create_file fsEmpty (lit "data/a.txt") (some (lit "hi"))).1.success = true ∧
    (create_file fsEmpty (lit "data/a.txt") (some (lit "hi"))).2.files
      (normalize_path (lit "data/a.txt")) = some (lit "hi") ∧
    (create_file fsEmpty (lit "data/a.txt") (some (lit "hi"))).2.dirs (lit "data") = true := by
  have h1 := create_file_spec fsEmpty (lit " ") (some (lit "hi"))
  have h2 := create_file_spec fsEmpty (lit "data/a.txt") (some (lit "hi"))
  refine ⟨h1.1 (by decide), (h2.2 (by decide)).1, (h2.2 (by decide)).2.1, ?_⟩
  exact (h2.2 (by decide)).2.2.2 (by decide) (by decide) (lit "data") (by decide)

/-- C8: across all five operations and all inputs, a failed result always
carries a non-empty message, and the `content` field is populated only by the
view operation and only on success: every failed `view_file` result and every
result of the four mutating operations carries no content. -/
theorem operation_result_invariant (fs : FS) (path old new text : List Char)
    (vr : Option (Int × Int)) (line : Option Int) (ftext : Option (List Char)) :
    ((view_file fs path vr).success = false →
      (view_file fs path vr).message ≠ [] ∧ (view_file fs path vr).content = none) ∧
    (((str_replace fs path old new).1.success = false →
        (str_replace fs path old new).1.message ≠ []) ∧
      (str_replace fs path old new).1.content = none) ∧
    (((create_file fs path ftext).1.success = false →
        (create_file fs path ftext).1.message ≠ []) ∧
      (create_file fs path ftext).1.content = none) ∧
    (((insert_text fs path line text).1.success = false →
        (insert_text fs path line text).1.message ≠ []) ∧
      (insert_text fs path line text).1.content = none) ∧
    (((undo_edit fs path).1.success = false →
        (undo_edit fs path).1.message ≠ []) ∧
      (undo_edit fs path).1.content = none) := by
  refine ⟨?_, ?_, ?_, ?_, ?_⟩
  · cases hf : fs.files (normalize_path path) with
    | none => simp [view_file, hf, lit]
    | some c => simp [view_file, hf]
  · cases hf : fs.files (normalize_path path) with
    | none => simp [str_replace, hf, lit]
    | some c =>
      cases hc : pyContains old c with
      | false => simp [str_replace, hf, hc, lit]
      | true => simp [str_replace, hf, hc]
  · cases hb : pathIsBlank path with
    | false => simp [create_file, hb]
    | true => simp [create_file, hb, lit]
  · cases hb : pathIsBlank path with
    | true => simp [insert_text, hb, lit]
    | false =>
      cases hf : fs.files (normalize_path path) with
      | none => simp [insert_text, hb, hf, lit]
      | some c =>
        cases line with
        | none => simp [insert_text, hb, hf, lit]
        | some l =>
          have hneg : ¬ (((readlines c).length : Int) < 0) := by omega
          simp [insert_text, hb, hf, lit, hneg]
  · cases hb : pathIsBlank path with
    | false => simp [undo_edit, hb]
    | true => simp [undo_edit, hb, lit]

/-- C8 witness: the invariant instantiated on the empty filesystem, where the
view, replace, and insert operations all fail on the missing file `a.txt` with
non-empty messages and no content, and the create and undo results carry no
content. -/
theorem operation_result_invariant_witness :
    ((view_file fsEmpty (lit "a.txt") none).message ≠ [] ∧
      (view_file fsEmpty (lit "a.txt") none).content = none) ∧
    ((str_replace fsEmpty (lit "a.txt") (lit "x") (lit "y")).1.message ≠ [] ∧
      (str_replace fsEmpty (lit "a.txt") (lit "x") (lit "y")).1.content = none) ∧
    ((insert_text fsEmpty (lit "a.txt") (some 1) (lit "z")).1.message ≠ [] ∧
      (insert_text fsEmpty (lit "a.txt") (some 1) (lit "z")).1.content = none) ∧
    (create_file fsEmpty (lit "a.txt") none).1.content = none ∧
    (undo_edit fsEmpty (lit "a.txt")).1.content = none := by
  have h := operation_result_invariant fsEmpty (lit "a.txt") (lit "x") (lit "y") (lit "z")
    none (some 1) none
  refine ⟨⟨(h.1 (by decide)).1, (h.1 (by decide)).2⟩,
    ⟨(h.2.1.1 (by decide)), h.2.1.2⟩,
    ⟨(h.2.2.2.1.1 (by decide)), h.2.2.2.1.2⟩,
    h.2.2.1.2, h.2.2.2.2.2⟩

/-- C1, behaviour at the claim's worked example: on `a.txt` containing
`"one\ntwo\nthree\n"`, `insert_text(path, 1, "ONE-A")` succeeds but produces
`"ONE-A\none\ntwo\nthree\n"` — the text is inserted before line 1, not after
it as the claim (and the function's own docstring) state. -/
theorem insert_text_line_one_inserts_at_start :
    (insert_text fsAbc (lit "a.txt") (some 1) (lit "ONE-A")).1.success = true ∧
    (insert_text fsAbc (lit "a.txt") (some 1) (lit "ONE-A")).2.files (lit "a.txt") =
      some (lit "ONE-A\none\ntwo\nthree\n") := by
  constructor
  · decide
  · decide

/-- C2 counterexample: on the one-line file `a.txt` containing `"a\n"`, the
line argument 5 is strictly greater than the line count, yet `insert_text`
succeeds (the claim says it fails) and appends to the file (the claim says
the file is unchanged). -/
theorem insert_text_beyond_range_succeeds :
    (insert_text fsOne (lit "a.txt") (some 5) (lit "b")).1.success = true ∧
    (insert_text fsOne (lit "a.txt") (some 5) (lit "b")).2.files (lit "a.txt") =
      some (lit "a\nb\n") := by
  constructor
  · decide
  · decide

/-- C2 (amended): for every existing file with N lines and every line
argument strictly greater than N, `insert_text` succeeds — the index is
clamped to N, so the (newline-terminated when nonempty) text is appended at
the end of the file; the out-of-range error branch is unreachable. -/
theorem insert_text_clamps_line_beyond_range (fs : FS) (path c : List Char) (line : Int)
    (text : List Char) (hb : pathIsBlank path = false)
    (hf : fs.files (normalize_path path) = some c)
    (hl : ((readlines c).length : Int) < line) :
    (insert_text fs path (some line) text).1.success = true ∧
    ∃ e, (e = text ∨ e = text ++ ['\n']) ∧
      (insert_text fs path (some line) text).2.files (normalize_path path) =
        some (c ++ e) := by
  have hidx : min (max 0 (line - 1)) (((readlines c).length : Int)) =
      ((readlines c).length : Int) := by omega
  have hcond : ¬ ((((readlines c).length : Int)) < 0 ∨
      (((readlines c).length : Int)) > (((readlines c).length : Int))) := by omega
  have hN : ((((readlines c).length : Int))).toNat = (readlines c).length := by omega
  have hneg : ¬ ((((readlines c).length : Int)) < 0) := by omega
  refine ⟨?_, if ¬text = [] ∧ ¬text.getLast? = some '\n' then text ++ ['\n'] else text,
    ?_, ?_⟩
  · simp [insert_text, hb, hf, hidx, hneg]
  · split
    · exact Or.inr rfl
    · exact Or.inl rfl
  · simp only [insert_text, hb, Bool.false_eq_true, if_false, hf, hidx]
    rw [if_neg hcond]
    simp [FS.setFile, hN, pyInsert, List.take_length, List.drop_length,
      flatten_readlines]

/-- C2 witness: the amended theorem applied to the one-line file `a.txt`
containing `"a\n"` with line argument 5 and text `"b"`. -/
theorem insert_text_clamps_line_beyond_range_witness :
    (insert_text fsOne (lit "a.txt") (some 5) (lit "b")).1.success = true ∧
    ∃ e, (e = lit "b" ∨ e = lit "b" ++ ['\n']) ∧
      (insert_text fsOne (lit "a.txt") (some 5) (lit "b")).2.files
        (normalize_path (lit "a.txt")) = some (lit "a\n" ++ e) :=
  insert_text_clamps_line_beyond_range fsOne (lit "a.txt") (lit "a\n") 5 (lit "b")
    (by decide) (by decide) (by decide)

/-- C4 counterexample: inserting the empty text into `a.txt` containing
`"a\n"` is a successful call, but the segment inserted into the line list is
the empty string, which is not terminated by a newline — no newline-terminated
segment equal to the text or to the text plus a newline accounts for the
resulting content. -/
theorem insert_text_empty_text_no_newline_segment :
    (insert_text fsOne (lit "a.txt") (some 1) []).1.success = true ∧
    ¬ ∃ idx ≤ (readlines (lit "a\n")).length, ∃ e,
        (insert_text fsOne (lit "a.txt") (some 1) []).2.files
          (normalize_path (lit "a.txt")) =
            some (pyInsert (readlines (lit "a\n")) idx e).flatten ∧
        e.getLast? = some '\n' ∧ (e = ([] : List Char) ∨ e = [] ++ ['\n']) := by
  constructor
  · decide
  · rintro ⟨idx, hidx, e, hc, hl, he⟩
    have hlen : (readlines (lit "a\n")).length = 1 := by decide
    rw [hlen] at hidx
    rcases he with rfl | rfl
    · simp at hl
    · interval_cases idx
      · revert hc
        decide
      · revert hc
        decide

/-- C4 (amended): every successful `insert_text` call with nonempty text
inserts into the line list a segment that is terminated by a newline — the
text itself when it already ends with one, and the text extended with a
newline otherwise. -/
theorem insert_text_nonempty_segment_newline (fs : FS) (path : List Char) (line : Option Int)
    (text c : List Char) (hf : fs.files (normalize_path path) = some c)
    (ht : text ≠ [])
    (hs : (insert_text fs path line text).1.success = true) :
    ∃ idx ≤ (readlines c).length, ∃ e,
      (insert_text fs path line text).2.files (normalize_path path) =
        some (pyInsert (readlines c) idx e).flatten ∧
      e.getLast? = some '\n' ∧ (e = text ∨ e = text ++ ['\n']) := by
  cases hb : pathIsBlank path with
  | true => simp [insert_text, hb] at hs
  | false =>
    cases line with
    | none => simp [insert_text, hb, hf] at hs
    | some l =>
      have hcond : ¬ ((min (max 0 (l - 1)) (((readlines c).length : Int))) < 0 ∨
          (min (max 0 (l - 1)) (((readlines c).length : Int))) >
            (((readlines c).length : Int))) := by omega
      have hle : (min (max 0 (l - 1)) (((readlines c).length : Int))).toNat ≤
          (readlines c).length := by omega
      refine ⟨(min (max 0 (l - 1)) (((readlines c).length : Int))).toNat, hle,
        if ¬text = [] ∧ ¬text.getLast? = some '\n' then text ++ ['\n'] else text,
        ?_, ?_, ?_⟩
      · simp only [insert_text, hb, Bool.false_eq_true, if_false, hf]
        rw [if_neg hcond]
        simp [FS.setFile]
      · by_cases hlast : text.getLast? = some '\n'
        · simp [hlast]
        · simp [ht, hlast, List.getLast?_concat]
      · split
        · exact Or.inr rfl
        · exact Or.inl rfl

/-- C4 witness: the amended theorem applied to `a.txt` containing `"a\n"`,
line 1 and the newline-less text `"b"`; the successful call inserts a
newline-terminated segment. -/
theorem insert_text_nonempty_segment_newline_witness :
    ∃ idx ≤ (readlines (lit "a\n")).length, ∃ e,
      (insert_text fsOne (lit "a.txt") (some 1) (lit "b")).2.files
        (normalize_path (lit "a.txt")) =
          some (pyInsert (readlines (lit "a\n")) idx e).flatten ∧
      e.getLast? = some '\n' ∧ (e = lit "b" ∨ e = lit "b" ++ ['\n']) :=
  insert_text_nonempty_segment_newline fsOne (lit "a.txt") (some 1) (lit "b") (lit "a\n")
    (by decide) (by decide) (by decide)
